import Mathlib

/-!
A verification development for the `daily_dashboard.py` report generator.

The program fetches several public data sources (news headlines, energy
prices, EU market capitalisation, Madrid weather), normalises each into a
tabular record, formats values, and renders a single HTML document.

The shallow embedding below models:
* Python `float` values as exact scaled decimals (`Dec`), since every
  numeric value manipulated by the program is a decimal literal and every
  arithmetic step is a comparison or a scaling by a power of ten;
* fetched payloads as `Option` values, where `none` stands for any fetch or
  structural-parse failure that the Python code catches with `except`;
* `pandas.DataFrame` as a list of string rows with a list of column names.

String-processing primitives (`strip`, `replace`, `lower`, substring test)
are modelled over `List Char` so that every definition evaluates inside the
kernel.
-/

/-! Section: Characters, digits and basic string machinery -/

/-- The decimal digit character for `n < 10` (ASCII `'0'` + `n`). -/
def digitChar (n : Nat) : Char := Char.ofNat (48 + n)

/-- Fuelled rendering of a natural number in base 10 (most significant digit
first).  The fuel only bounds the recursion; `natToChars` always supplies
enough. -/
def natToCharsAux : Nat → Nat → List Char
  | 0, _ => []
  | fuel + 1, n =>
    if n < 10 then [digitChar n]
    else natToCharsAux fuel (n / 10) ++ [digitChar (n % 10)]

/-- Decimal digit string of a natural number, e.g. `natToChars 120 = "120"`. -/
def natToChars (n : Nat) : List Char := natToCharsAux (n + 1) n

/-- Left-pad a digit string with `'0'` up to width `k`. -/
def padZeros (k : Nat) (ds : List Char) : List Char :=
  List.replicate (k - ds.length) '0' ++ ds

/-- Insert a `','` after every third character; the input and output are in
reversed (least-significant-first) order.  Models the `,` flag of Python
`format`. -/
def group3 : List Char → List Char
  | d1 :: d2 :: d3 :: d4 :: rest => d1 :: d2 :: d3 :: ',' :: group3 (d4 :: rest)
  | l => l

/-- Predicate `isPrefixL pat l` tests whether `pat` is a prefix of `l`. -/
def isPrefixL : List Char → List Char → Bool
  | [], _ => true
  | _ :: _, [] => false
  | a :: as, b :: bs => a = b && isPrefixL as bs

/-- `containsSub l pat` models Python's substring test `pat in l`. -/
def containsSub : List Char → List Char → Bool
  | [], pat => pat.isEmpty
  | c :: rest, pat => isPrefixL pat (c :: rest) || containsSub rest pat

/-- Models Python `str.strip()`: drop whitespace from both ends. -/
def trimChars (l : List Char) : List Char :=
  ((l.dropWhile Char.isWhitespace).reverse.dropWhile Char.isWhitespace).reverse

/-- Models Python `str.replace(c, "")` for a single-character pattern:
removes every occurrence of `c`. -/
def removeChar (c : Char) (l : List Char) : List Char :=
  l.filter (fun d => !(d = c))

/-- Models Python `str.lower()`. -/
def lowerChars (l : List Char) : List Char := l.map Char.toLower

/-- Numeric value of a digit string, e.g. `digitsVal "120" = 120`. -/
def digitsVal (ds : List Char) : Nat :=
  ds.foldl (fun a c => a * 10 + (c.toNat - 48)) 0

/-! Section: Exact decimals: the model of Python floats used by this program -/

/-- An exact scaled decimal: the value is `num / 10 ^ exp`.  Every float the
dashboard manipulates is produced by parsing a decimal literal and is only
ever scaled by powers of ten and compared, so this embedding is exact. -/
structure Dec where
  num : Int
  exp : Nat
  deriving DecidableEq, Repr

namespace Dec

/-- The decimal with integer value `n`. -/
def ofInt (n : Int) : Dec := ⟨n, 0⟩

/-- Value-level order: `a ≤ b` as rational numbers. -/
def le (a b : Dec) : Prop := a.num * (10 : Int) ^ b.exp ≤ b.num * (10 : Int) ^ a.exp

/-- Value-level strict order: `a < b` as rational numbers. -/
def lt (a b : Dec) : Prop := a.num * (10 : Int) ^ b.exp < b.num * (10 : Int) ^ a.exp

instance (a b : Dec) : Decidable (le a b) := by unfold le; infer_instance

instance (a b : Dec) : Decidable (lt a b) := by unfold lt; infer_instance

/-- Multiply by `10 ^ k` (used for `v *= 1e12` and fixed-point formatting). -/
def mulPow10 (d : Dec) (k : Nat) : Dec := ⟨d.num * (10 : Int) ^ k, d.exp⟩

/-- Divide by `10 ^ k` (used for `v / 1e12` and `v / 1e9`). -/
def divPow10 (d : Dec) (k : Nat) : Dec := ⟨d.num, d.exp + k⟩

/-- Absolute value. -/
def abs (d : Dec) : Dec := ⟨(d.num.natAbs : Int), d.exp⟩

/-- Floor to an integer (towards minus infinity). -/
def floor (d : Dec) : Int := d.num.fdiv ((10 : Int) ^ d.exp)

/-- Round to the nearest integer, ties to even — the rounding used by
Python's `format` on floats. -/
def roundHalfEven (d : Dec) : Int :=
  let f := d.floor
  let rnum := d.num - f * (10 : Int) ^ d.exp
  if 2 * rnum < (10 : Int) ^ d.exp then f
  else if (10 : Int) ^ d.exp < 2 * rnum then f + 1
  else if f % 2 = 0 then f else f + 1

end Dec

/-- Models Python `f"{v:.k f}"`: fixed-point rendering with `k` fractional
digits, rounding half to even, the sign taken from the value. -/
def fmtFixed (k : Nat) (d : Dec) : String :=
  let m := (Dec.roundHalfEven (Dec.mulPow10 d.abs k)).toNat
  (if d.num < 0 then "-" else "")
    ++ String.mk (natToChars (m / 10 ^ k))
    ++ "." ++ String.mk (padZeros k (natToChars (m % 10 ^ k)))

/-- Models Python `f"{v:.2f}"`. -/
def fmt2 (d : Dec) : String := fmtFixed 2 d

/-- Models Python `f"{v:.1f}"`. -/
def fmt1 (d : Dec) : String := fmtFixed 1 d

/-- Models Python `f"{v:,.0f}"`: round to an integer, group digits in
threes with commas. -/
def fmtThousands (d : Dec) : String :=
  let m := (Dec.roundHalfEven d.abs).toNat
  (if d.num < 0 then "-" else "")
    ++ String.mk ((group3 (natToChars m).reverse).reverse)

/-- The shortest fractional width (between 1 and 17) that renders the
fractional part `fr / 10 ^ exp` exactly; 17 when none does.  Mirrors the
shortest-round-trip rule of Python `str(float)` for exactly representable
decimals. -/
def fracLen (exp : Nat) (fr : Nat) : Nat :=
  match (List.range' 1 17).find? (fun k => fr * 10 ^ k % 10 ^ exp = 0) with
  | some k => k
  | none => 17

/-- Models Python `str(v)` for a float `v`: sign, integer part, `'.'`,
fractional digits.  Its output alphabet is digits, `'-'` and `'.'` only —
in particular it never contains a letter. -/
def floatStr (d : Dec) : String :=
  let a := d.num.natAbs
  let ip := a / 10 ^ d.exp
  let fr := a % 10 ^ d.exp
  let k := fracLen d.exp fr
  String.mk
    ((if d.num < 0 then ['-'] else [])
      ++ natToChars ip ++ '.' :: padZeros k (natToChars (fr * 10 ^ k / 10 ^ d.exp)))

/-! Section: Parsing decimal literals: the model of Python `float(str)` -/

/-- Parses the exponent suffix of a float literal, after the `e`/`E`. -/
def parseFloatExp (mant : Dec) (l : List Char) : Option Dec :=
  let (neg, l1) : Bool × List Char :=
    match l with
    | '+' :: rest => (false, rest)
    | '-' :: rest => (true, rest)
    | _ => (false, l)
  let ds := l1.takeWhile Char.isDigit
  let l2 := l1.dropWhile Char.isDigit
  if ds.isEmpty ∨ ¬ l2.isEmpty then none
  else if neg then some (mant.divPow10 (digitsVal ds))
  else some (mant.mulPow10 (digitsVal ds))

/-- Parses an optionally signed decimal literal with optional fractional
part and optional exponent, modelling Python `float(s)` on the string
shapes this program can meet (it does not model `inf`/`nan`/underscore
forms).  Returns `none` where `float` raises `ValueError`. -/
def parseFloat? (s : String) : Option Dec :=
  let l := trimChars s.data
  -- sign
  let (sgn, l1) : Int × List Char :=
    match l with
    | '+' :: rest => (1, rest)
    | '-' :: rest => (-1, rest)
    | _ => (1, l)
  -- integer digits
  let ds := l1.takeWhile Char.isDigit
  let l2 := l1.dropWhile Char.isDigit
  -- optional fractional part
  let (ds2, l3) : List Char × List Char :=
    match l2 with
    | '.' :: rest => (rest.takeWhile Char.isDigit, rest.dropWhile Char.isDigit)
    | _ => ([], l2)
  if ds.isEmpty && ds2.isEmpty then none
  else
    let mant : Dec :=
      ⟨sgn * (Int.ofNat (digitsVal ds * 10 ^ ds2.length + digitsVal ds2)), ds2.length⟩
    match l3 with
    | [] => some mant
    | 'e' :: rest => parseFloatExp mant rest
    | 'E' :: rest => parseFloatExp mant rest
    | _ => none

/-! Section: The market-cap value formatter (`format_mcap`, lines 115–124) -/

/-- The cleaning step of `format_mcap`:
`str(v).replace("$", "").replace(",", "").replace("B", "").replace("T", "")`. -/
def mcapClean (v : String) : String :=
  String.mk (removeChar 'T' (removeChar 'B' (removeChar ',' (removeChar '$' v.data))))

/-- Embeds `format_mcap` from `scrape_eu_market_cap`: cleans the cell text,
converts it to a float, optionally rescales when the *converted float's*
string rendering contains `"T"`/`"B"` (which never happens), then formats
by fixed thresholds.  When `float` raises, the original text is returned
unchanged. -/
def format_mcap (v : String) : String :=
  match parseFloat? (mcapClean v) with
  | none => v
  | some q0 =>
    let q :=
      if containsSub (floatStr q0).data ['T'] then q0.mulPow10 12
      else if containsSub (floatStr q0).data ['B'] then q0.mulPow10 9
      else q0
    if Dec.le (Dec.ofInt (10 ^ 12)) q then "$" ++ fmt2 (q.divPow10 12) ++ "T"
    else if Dec.le (Dec.ofInt (10 ^ 9)) q then "$" ++ fmt2 (q.divPow10 9) ++ "B"
    else "$" ++ fmtThousands q

/-- Structural concatenation of a list of strings, modelling `"".join` and
the fragment concatenation of the HTML builders. -/
def concatStrings : List String → String
  | [] => ""
  | s :: rest => s ++ concatStrings rest

/-! Section: The tabular data model (`pandas.DataFrame` as used by the program) -/

/-- A data frame: ordered column names and rows of string cells.  Rows built
by the program always have one cell per column. -/
structure DF where
  columns : List String
  rows : List (List String)
  deriving DecidableEq

/-- Models `pandas.DataFrame.empty`: true when the frame has no rows or no
columns. -/
def DF.empty (df : DF) : Bool := df.rows.isEmpty || df.columns.isEmpty

/-! Section: 1. OKDiario headlines (`scrape_okdiario_headlines`, lines 23–36) -/

/-- The per-entry step of the headline loop: entries without a `title`
attribute are `none`; a present title is stripped and dropped when empty. -/
def cleanTitle (entry : Option String) : Option String :=
  match entry with
  | none => none
  | some t =>
    let t' := String.mk (trimChars t.data)
    if t' = "" then none else some t'

/-- Embeds `scrape_okdiario_headlines`: the feed payload is `none` when
`feedparser` fails (the `except` branch), otherwise the list of entries,
each carrying an optional title.  Takes the first `limit` entries, keeps
non-empty stripped titles, and falls back to a one-element placeholder. -/
def scrape_okdiario_headlines (limit : Nat) (payload : Option (List (Option String))) :
    List String :=
  match payload with
  | none => ["Headlines unavailable at the moment"]
  | some entries =>
    let headlines := (entries.take limit).filterMap cleanTitle
    if headlines.isEmpty then ["No recent headlines available"] else headlines

/-! Section: 2. Energy prices (`scrape_energy_prices`, lines 41–87) -/

/-- The fixed energy-table column set. -/
def energyCols : List String := ["Region", "Change %", "Avg Price", "High", "Low"]

/-- Models `re.sub(r'^\d+\s*', '', s).strip()`: strip a leading run of
digits, then surrounding whitespace. -/
def stripRank (s : String) : String :=
  String.mk (trimChars (s.data.dropWhile Char.isDigit))

/-- One iteration of the energy row loop (lines 54–81): rows with fewer
than 3 cells are skipped; the change column is located by scanning cells 1
and 2 for a `%` character; average/high/low are read starting one cell
after the change column, defaulting to `""` when the row is too short. -/
def processEnergyRow (cols : List String) : Option (List String) :=
  if cols.length < 3 then none
  else
    let region := stripRank (cols.getD 0 "")
    let change : String :=
      if containsSub (cols.getD 1 "").data ['%'] then cols.getD 1 ""
      else if decide (2 < cols.length) && containsSub (cols.getD 2 "").data ['%'] then
        cols.getD 2 ""
      else ""
    let avg_start : Nat :=
      if containsSub (cols.getD 1 "").data ['%'] then 2
      else if decide (2 < cols.length) && containsSub (cols.getD 2 "").data ['%'] then 3
      else 1
    some [region, change, cols.getD avg_start "", cols.getD (avg_start + 1) "",
          cols.getD (avg_start + 2) ""]

/-- Embeds `scrape_energy_prices`: the payload is `none` when the fetch fails or
no `<table>` element is found; otherwise the table's rows as lists of cell
texts.  The header row is skipped, malformed rows are dropped, and an empty
result degrades to the fixed empty frame. -/
def scrape_energy_prices (top_n : Nat) (payload : Option (List (List String))) : DF :=
  match payload with
  | none => ⟨energyCols, []⟩
  | some trs =>
    let data := (trs.drop 1).filterMap processEnergyRow
    if data.isEmpty then ⟨energyCols, []⟩ else ⟨energyCols, data.take top_n⟩

/-! Section: 3. EU market cap (`scrape_eu_market_cap`, lines 92–136) -/

/-- The market-cap frame's base column set (also the degraded column set). -/
def mcapBaseCols : List String := ["Rank", "Company", "Market Cap"]

/-- Header normalisation `str(c).strip().lower().replace(" ", "")`. -/
def normHeader (h : String) : String :=
  String.mk (removeChar ' ' (lowerChars (trimChars h.data)))

/-- The `Daily %` cell formatter (lines 129–131): blank cells map to `""`;
otherwise the text with `%` removed must parse as a float (a parse failure
raises and degrades the whole source), and is rendered with 2 decimals. -/
def formatChange (x : String) : Option String :=
  if (trimChars x.data).isEmpty then some ""
  else
    match parseFloat? (String.mk (removeChar '%' x.data)) with
    | none => none
    | some q => some (fmt2 q ++ "%")

/-- Embeds `scrape_eu_market_cap`: the payload is `none` when the fetch or the CSV
parse fails; otherwise the CSV header names and data rows (cells as raw
text).  Columns are auto-detected by substring match with positional
fallbacks; fewer than 3 columns raises `IndexError` (the fallback
`df.columns[2]` is evaluated eagerly) and degrades. -/
def scrape_eu_market_cap (top_n : Nat)
    (payload : Option (List String × List (List String))) : DF :=
  match payload with
  | none => ⟨mcapBaseCols, []⟩
  | some (hdrs, rws) =>
    let cols := hdrs.map normHeader
    if cols.length < 3 then ⟨mcapBaseCols, []⟩
    else
      let rankIdx := (cols.findIdx? (fun c => containsSub c.data "rank".data)).getD 0
      let nameIdx := (cols.findIdx? (fun c =>
        containsSub c.data "name".data || containsSub c.data "company".data)).getD 1
      let mcapIdx := (cols.findIdx? (fun c =>
        containsSub c.data "marketcap".data || containsSub c.data "market".data)).getD 2
      let changeIdx? := cols.findIdx? (fun c =>
        containsSub c.data "today".data || containsSub c.data "change".data ||
          containsSub c.data "1d".data)
      let top := rws.take top_n
      let base := top.map (fun r =>
        [r.getD rankIdx "", r.getD nameIdx "", format_mcap (r.getD mcapIdx "")])
      match changeIdx? with
      | none => ⟨mcapBaseCols, base⟩
      | some ci =>
        match top.mapM (fun r => formatChange (r.getD ci "")) with
        | none => ⟨mcapBaseCols, []⟩
        | some chs => ⟨mcapBaseCols ++ ["Daily %"], (base.zip chs).map (fun p => p.1 ++ [p.2])⟩

/-! Section: 4. Madrid hourly forecast (`get_madrid_hourly_forecast`, lines 141–176) -/

/-- The parallel hourly series of the Open-Meteo JSON payload. -/
structure Hourly where
  time : List String
  temperature_2m : List Dec
  apparent_temperature : List Dec
  precipitation_probability : List Dec
  precipitation : List Dec

/-- The fixed weather column set of the degraded branch (line 176). -/
def weatherCols : List String :=
  ["Time", "Temp", "Feels", "Rain %", "Rain mm", "Condition"]

/-- Two-digit decimal value, for timestamp range checks. -/
def toNum2 (a b : Char) : Nat := (a.toNat - 48) * 10 + (b.toNat - 48)

/-- Models `datetime.fromisoformat(t).strftime("%H:%M")` for the
minute-precision ISO strings returned by the Open-Meteo API
(`YYYY-MM-DDTHH:MM`); date validity is simplified to digit and range
checks.  `none` models the `ValueError` raised on malformed input. -/
def hhmm? (s : String) : Option String :=
  match s.data with
  | [y1, y2, y3, y4, '-', mo1, mo2, '-', da1, da2, 'T', h1, h2, ':', mi1, mi2] =>
    if y1.isDigit ∧ y2.isDigit ∧ y3.isDigit ∧ y4.isDigit
        ∧ mo1.isDigit ∧ mo2.isDigit ∧ da1.isDigit ∧ da2.isDigit
        ∧ h1.isDigit ∧ h2.isDigit ∧ mi1.isDigit ∧ mi2.isDigit
        ∧ 1 ≤ toNum2 mo1 mo2 ∧ toNum2 mo1 mo2 ≤ 12
        ∧ 1 ≤ toNum2 da1 da2 ∧ toNum2 da1 da2 ≤ 31
        ∧ toNum2 h1 h2 ≤ 23 ∧ toNum2 mi1 mi2 ≤ 59 then
      some (String.mk [h1, h2, ':', mi1, mi2])
    else none
  | _ => none

/-- The row-building loop (lines 161–172): iterates over the time series,
indexing the other four series at the same position.  An out-of-range index
or a timestamp parse failure raises (modelled by `none`), which the caller
catches by degrading the whole source. -/
def buildRows :
    List String → List Dec → List Dec → List Dec → List Dec →
      Option (List (List String))
  | [], _, _, _, _ => some []
  | t :: ts, tp :: tps, fl :: fls, rp :: rps, rm :: rms =>
    match hhmm? t, buildRows ts tps fls rps rms with
    | some tstr, some rest =>
      some ([tstr, floatStr tp ++ " °C", floatStr fl ++ " °C", floatStr rp ++ "%",
             fmt1 rm ++ " mm",
             if Dec.lt ⟨1, 1⟩ rm then "Rain" else "Clear/Cloudy"] :: rest)
    | _, _ => none
  | _, _, _, _, _ => none

/-- Embeds `get_madrid_hourly_forecast`: the payload is `none` when the fetch, the
JSON parse or the `"hourly"` key lookup fails.  Each series is truncated to
`hours_to_show`; any error inside the row loop degrades to the fixed empty
frame; `pd.DataFrame([])` (an empty row list) yields a frame with *no*
columns. -/
def get_madrid_hourly_forecast (hours_to_show : Nat) (payload : Option Hourly) : DF :=
  match payload with
  | none => ⟨weatherCols, []⟩
  | some h =>
    match buildRows (h.time.take hours_to_show) (h.temperature_2m.take hours_to_show)
        (h.apparent_temperature.take hours_to_show)
        (h.precipitation_probability.take hours_to_show)
        (h.precipitation.take hours_to_show) with
    | none => ⟨weatherCols, []⟩
    | some rows => if rows.isEmpty then ⟨[], []⟩ else ⟨weatherCols, rows⟩

/-! Section: 5. Global markets placeholder (`scrape_global_markets`, lines 181–188) -/

/-- The fixed illustrative indices dataset. -/
def scrape_global_markets : DF :=
  ⟨["Index", "Weekly", "Monthly", "YTD", "YoY"],
   [["S&P 500", "+1.4%", "+4.2%", "+9.8%", "+19%"],
    ["Euro Stoxx 50", "-0.3%", "+2.8%", "+5.1%", "+13%"],
    ["DAX", "+0.9%", "+3.1%", "+6.7%", "+15%"]]⟩

/-! Section: Percentage colorizer (`color_percentages`, lines 193–200) -/

/-- Matches the body of the regex `>([+-]?\d+\.?\d*%)<` after the leading
`>` and a possible sign have been consumed: at least one digit, an optional
dot with further digits, then `%` and the closing `<`.  Returns the
captured token (sign included) and the input after the `<`. -/
def tryTokenCore (sgn l1 : List Char) : Option (List Char × List Char) :=
  let ds := l1.takeWhile Char.isDigit
  let l2 := l1.dropWhile Char.isDigit
  if ds.isEmpty then none
  else
    let dot : List Char := if l2.head? = some '.' then ['.'] else []
    let l3 : List Char := if l2.head? = some '.' then l2.tail else l2
    let ds2 := l3.takeWhile Char.isDigit
    let l4 := l3.dropWhile Char.isDigit
    if l4.head? = some '%' ∧ l4.tail.head? = some '<' then
      some (sgn ++ ds ++ dot ++ ds2 ++ ['%'], l4.tail.tail)
    else none

/-- Splits off the optional `[+-]` sign, then matches the token body. -/
def tryToken (l : List Char) : Option (List Char × List Char) :=
  match l with
  | c :: rest =>
    if c = '+' ∨ c = '-' then tryTokenCore [c] rest else tryTokenCore [] (c :: rest)
  | [] => tryTokenCore [] []

/-- The styled `<span>` opening tag of the replacement template. -/
def spanOpen (color : String) : String :=
  "<span style=\"color:" ++ color ++ "; font-weight:600;\">"

/-- Red for tokens starting with `-`, green otherwise. -/
def pctColor (tok : List Char) : String :=
  if tok.head? = some '-' then "#d62728" else "#2ca02c"

/-- The full replacement for a matched `>token<`:
`'><span style="color:...; font-weight:600;">token</span><'`. -/
def wrapTok (tok : List Char) : List Char :=
  '>' :: (spanOpen (pctColor tok)).data ++ tok ++ "</span><".data

/-- The left-to-right, non-overlapping scan of `re.sub`: at each `>` try to
match a percentage token followed by `<`; on a match emit the replacement
and resume after the consumed text.  The fuel only bounds the recursion
(each step consumes at least one input character), and
`color_percentages` supplies enough. -/
def colorLoop : Nat → List Char → List Char
  | _, [] => []
  | 0, l => l
  | fuel + 1, c :: rest =>
    if c = '>' then
      match tryToken rest with
      | some (tok, rest') => wrapTok tok ++ colorLoop fuel rest'
      | none => '>' :: colorLoop fuel rest
    else c :: colorLoop fuel rest

/-- Embeds `color_percentages`: wraps every `>token<`-delimited percentage token
in a colored span and leaves all other text unchanged. -/
def color_percentages (s : String) : String :=
  String.mk (colorLoop s.data.length s.data)

/-! Section: HTML rendering (`generate_html_report`, lines 205–271) -/

/-- Models `DataFrame.to_html(index=False, classes="styled", escape=False)`:
a `<table>` with one `<th>` per column and one `<tr>` of `<td>` cells per
row. -/
def to_html (df : DF) : String :=
  "<table border=\"1\" class=\"dataframe styled\">\n  <thead>\n    <tr style=\"text-align: right;\">\n"
    ++ concatStrings (df.columns.map (fun c => "      <th>" ++ c ++ "</th>\n"))
    ++ "    </tr>\n  </thead>\n  <tbody>\n"
    ++ concatStrings (df.rows.map (fun r =>
        "    <tr>\n"
          ++ concatStrings (r.map (fun v => "      <td>" ++ v ++ "</td>\n"))
          ++ "    </tr>\n"))
    ++ "  </tbody>\n</table>"

/-- The per-table fragment of lines 208–211: an empty frame renders as an
explicit unavailability paragraph, a non-empty one as its colorized HTML
table. -/
def sectionHtml (df : DF) : String :=
  if df.empty then "<p>Data currently unavailable</p>"
  else color_percentages (to_html df)

/-- The template text up to the embedded timestamp. -/
def htmlHead : String :=
  "<!DOCTYPE html>\n<html lang=\"en\">\n<head>\n    <meta charset=\"UTF-8\">\n    <meta name=\"viewport\" content=\"width=device-width, initial-scale=1.0\">\n    <title>Executive Intelligence Dashboard</title>\n    <style>\n        body \x7b font-family: 'Segoe UI', sans-serif; background: #f4f6f9; margin:0; padding:0; color:#333; \x7d\n        header \x7b background: linear-gradient(90deg, #1f4e79, #163a5f); color:white; padding:2.5rem; text-align:center; \x7d\n        .container \x7b max-width:1200px; margin:0 auto; padding:2rem; \x7d\n        .card \x7b background:white; border-radius:12px; box-shadow:0 4px 15px rgba(0,0,0,0.1); padding:1.8rem; margin-bottom:2.5rem; \x7d\n        h1, h2 \x7b margin:0.5rem 0; \x7d\n        h2 \x7b color:#163a5f; \x7d\n        table.styled \x7b width:100%; border-collapse:collapse; font-size:0.95rem; \x7d\n        table.styled th \x7b background:#163a5f; color:white; padding:0.9rem; text-align:left; \x7d\n        table.styled td \x7b padding:0.8rem; border-bottom:1px solid #eee; \x7d\n        table.styled tr:nth-child(even) \x7b background:#f8fbff; \x7d\n        ul \x7b padding-left:1.4rem; line-height:1.6; list-style-type:disc; \x7d\n    </style>\n</head>\n<body>\n<header>\n    <h1>📊 Executive Intelligence Dashboard</h1>\n    <p>Generated: "

/-- Template text between the timestamp and the headline list. -/
def htmlAfterNow : String :=
  "</p>\n</header>\n<div class=\"container\">\n    <div class=\"card\">\n        <h2>📰 Top Headlines (OKDiario)</h2>\n        <ul>"

/-- Template text between the headline list and the energy table. -/
def htmlAfterHeadlines : String :=
  "</ul>\n    </div>\n    \n    <div class=\"card\">\n        <h2>⚡ European Energy Prices</h2>\n        "

/-- Template text between the energy table and the market-cap table. -/
def htmlAfterEnergy : String :=
  "\n    </div>\n    \n    <div class=\"card\">\n        <h2>🏢 Largest EU Companies by Market Cap</h2>\n        "

/-- Template text between the market-cap table and the stocks table. -/
def htmlAfterMarket : String :=
  "\n    </div>\n    \n    <div class=\"card\">\n        <h2>📈 Global Stock Indices (Placeholder)</h2>\n        "

/-- Template text between the stocks table and the forecast table. -/
def htmlAfterStocks : String :=
  "\n    </div>\n    \n    <div class=\"card\">\n        <h2>🌤 Madrid Hourly Forecast (Next 12h)</h2>\n        "

/-- Template text after the forecast table. -/
def htmlTail : String := "\n    </div>\n</div>\n</body>\n</html>"

/-- Embeds `generate_html_report` (the pure document construction; the file write
of lines 267–271 is outside the model): interpolates the timestamp, the
headline list and the four per-table fragments into the fixed template. -/
def generate_html_report (now : String) (headlines : List String)
    (energy_df market_df stocks_df forecast_df : DF) : String :=
  htmlHead ++ now ++ htmlAfterNow
    ++ concatStrings (headlines.map (fun h => "<li>" ++ h ++ "</li>"))
    ++ htmlAfterHeadlines ++ sectionHtml energy_df
    ++ htmlAfterEnergy ++ sectionHtml market_df
    ++ htmlAfterMarket ++ sectionHtml stocks_df
    ++ htmlAfterStocks ++ sectionHtml forecast_df
    ++ htmlTail

/-- The main script (lines 276–284) with the fetched payloads made
explicit: normalises each payload with the configured limits and renders
the document. -/
def runPipeline (now : String) (feed : Option (List (Option String)))
    (energy : Option (List (List String)))
    (mcap : Option (List String × List (List String)))
    (weather : Option Hourly) : String :=
  generate_html_report now (scrape_okdiario_headlines 8 feed)
    (scrape_energy_prices 10 energy) (scrape_eu_market_cap 15 mcap)
    scrape_global_markets (get_madrid_hourly_forecast 12 weather)


/-! Section: Spec-side definitions and concrete instances used by the claims -/

/-- The headline selection described by the spec's words (for comparison
with the code): "the first `limit` non-empty titles of the feed, in feed
order" — filter first, then truncate. -/
def specFirstTitles (entries : List (Option String)) (limit : Nat) : List String :=
  (entries.filterMap cleanTitle).take limit

/-- A 10-entry feed whose first entry has an empty title. -/
def c4Feed : List (Option String) :=
  [some "", some "t1", some "t2", some "t3", some "t4", some "t5", some "t6",
   some "t7", some "t8", some "t9"]

/-- A 10-entry feed all of whose titles are non-empty. -/
def c4GoodFeed : List (Option String) :=
  [some "a1", some "a2", some "a3", some "a4", some "a5", some "a6", some "a7",
   some "a8", some "a9", some "a10"]

/-- A weather payload whose temperature series (length 1) is shorter than
its time series (length 2). -/
def c5Payload : Hourly :=
  ⟨["2026-01-01T00:00", "2026-01-01T01:00"], [⟨10, 0⟩],
   [⟨10, 0⟩, ⟨10, 0⟩], [⟨0, 0⟩, ⟨0, 0⟩], [⟨0, 0⟩, ⟨0, 0⟩]⟩

/-- A weather payload whose time series (length 1) is the shortest series. -/
def c5ShortTimes : Hourly :=
  ⟨["2026-02-01T00:00"], [⟨21, 0⟩, ⟨22, 0⟩], [⟨21, 0⟩, ⟨22, 0⟩],
   [⟨5, 0⟩, ⟨5, 0⟩], [⟨0, 0⟩, ⟨0, 0⟩]⟩

/-- A weather payload whose precipitation-probability series (length 2) is
shorter than its time series (length 3). -/
def c5ShortProb : Hourly :=
  ⟨["2026-02-02T00:00", "2026-02-02T01:00", "2026-02-02T02:00"],
   [⟨15, 0⟩, ⟨15, 0⟩, ⟨15, 0⟩], [⟨15, 0⟩, ⟨15, 0⟩, ⟨15, 0⟩],
   [⟨5, 0⟩, ⟨5, 0⟩], [⟨0, 0⟩, ⟨0, 0⟩, ⟨0, 0⟩]⟩

/-- A well-formed 2-hour weather payload with precipitation `0.0` at the
first position and `2.5` at the second. -/
def c6Payload : Hourly :=
  ⟨["2026-03-01T00:00", "2026-03-01T01:00"], [⟨18, 0⟩, ⟨17, 0⟩],
   [⟨18, 0⟩, ⟨16, 0⟩], [⟨0, 0⟩, ⟨80, 0⟩], [⟨0, 0⟩, ⟨25, 1⟩]⟩

/-- The rows the forecast normaliser builds from `c6Payload`. -/
def c6Rows : List (List String) :=
  [["00:00", "18.0 °C", "18.0 °C", "0.0%", "0.0 mm", "Clear/Cloudy"],
   ["01:00", "17.0 °C", "16.0 °C", "80.0%", "2.5 mm", "Rain"]]

/-- The shape of a full percentage token, as captured by the regex
`[+-]?\d+\.?\d*%` of `color_percentages`: an optional sign, at least one
digit, an optional dot followed by digits, then the percent sign. -/
def IsPctTok (tok : List Char) : Prop :=
  ∃ (sgn ds dotp : List Char),
    tok = sgn ++ ds ++ dotp ++ ['%']
    ∧ (sgn = [] ∨ sgn = ['+'] ∨ sgn = ['-'])
    ∧ ds ≠ [] ∧ (∀ c ∈ ds, c.isDigit = true)
    ∧ (dotp = [] ∨ ∃ ds2, dotp = '.' :: ds2 ∧ ∀ c ∈ ds2, c.isDigit = true)

/-! Section: General helper lemmas -/

theorem digitChar_isDigit {n : Nat} (h : n < 10) : (digitChar n).isDigit = true := by
  interval_cases n <;> decide

theorem mem_natToCharsAux {fuel n : Nat} {c : Char} (h : c ∈ natToCharsAux fuel n) :
    c.isDigit = true := by
  induction fuel generalizing n with
  | zero => simp [natToCharsAux] at h
  | succ fuel ih =>
    rw [natToCharsAux] at h
    by_cases h10 : n < 10
    · rw [if_pos h10] at h
      simp only [List.mem_singleton] at h
      exact h ▸ digitChar_isDigit h10
    · rw [if_neg h10] at h
      rcases List.mem_append.1 h with h' | h'
      · exact ih h'
      · simp only [List.mem_singleton] at h'
        exact h' ▸ digitChar_isDigit (Nat.mod_lt _ (by omega))

theorem mem_natToChars {n : Nat} {c : Char} (h : c ∈ natToChars n) : c.isDigit = true :=
  mem_natToCharsAux h

theorem containsSub_single {l : List Char} {c : Char} :
    containsSub l [c] = true ↔ c ∈ l := by
  induction l with
  | nil => simp [containsSub]
  | cons d rest ih =>
    simp [containsSub, isPrefixL, ih, List.mem_cons]

theorem floatStr_alphabet {d : Dec} {c : Char} (h : c ∈ (floatStr d).data) :
    c.isDigit = true ∨ c = '-' ∨ c = '.' := by
  unfold floatStr at h
  have h5 : c ∈ (if d.num < 0 then ['-'] else []) ∨
      c ∈ natToChars (d.num.natAbs / 10 ^ d.exp) ∨ c = '.' ∨
      c ∈ List.replicate (fracLen d.exp (d.num.natAbs % 10 ^ d.exp) -
        (natToChars (d.num.natAbs % 10 ^ d.exp *
          10 ^ fracLen d.exp (d.num.natAbs % 10 ^ d.exp) / 10 ^ d.exp)).length) '0' ∨
      c ∈ natToChars (d.num.natAbs % 10 ^ d.exp *
        10 ^ fracLen d.exp (d.num.natAbs % 10 ^ d.exp) / 10 ^ d.exp) := by
    simpa [padZeros, List.mem_append, List.mem_cons, or_assoc] using h
  rcases h5 with h5 | h5 | h5 | h5 | h5
  · split at h5
    · simp only [List.mem_singleton] at h5
      exact Or.inr (Or.inl h5)
    · simp at h5
  · exact Or.inl (mem_natToChars h5)
  · exact Or.inr (Or.inr h5)
  · exact Or.inl ((List.eq_of_mem_replicate h5) ▸ (by decide))
  · exact Or.inl (mem_natToChars h5)

theorem containsSub_floatStr_T (d : Dec) : containsSub (floatStr d).data ['T'] = false := by
  cases hT : containsSub (floatStr d).data ['T'] with
  | false => rfl
  | true =>
    rcases floatStr_alphabet (containsSub_single.1 hT) with h | h | h <;> simp at h

theorem containsSub_floatStr_B (d : Dec) : containsSub (floatStr d).data ['B'] = false := by
  cases hB : containsSub (floatStr d).data ['B'] with
  | false => rfl
  | true =>
    rcases floatStr_alphabet (containsSub_single.1 hB) with h | h | h <;> simp at h

theorem dec_le_9_of_12 {q : Dec} (h : Dec.le (Dec.ofInt (10 ^ 12)) q) :
    Dec.le (Dec.ofInt (10 ^ 9)) q := by
  unfold Dec.le Dec.ofInt at *
  simp only [pow_zero, mul_one] at *
  have hpow : (0 : Int) ≤ (10 : Int) ^ q.exp := by positivity
  calc (10 : Int) ^ 9 * (10 : Int) ^ q.exp
      ≤ (10 : Int) ^ 12 * (10 : Int) ^ q.exp := by
        exact mul_le_mul_of_nonneg_right (by norm_num) hpow
    _ ≤ q.num := h

/-! Section: Claim C1 — degraded results of the normalizers -/

/-- C1 (counterexample): the weather normalizer applied to a structurally
valid payload whose hourly series are all empty returns an empty table with
an *empty* column set, not an empty table with the source's fixed column
set as the claim states. -/
theorem claim_C1_counterexample :
    get_madrid_hourly_forecast 12 (some ⟨[], [], [], [], []⟩) = ⟨[], []⟩
    ∧ (get_madrid_hourly_forecast 12 (some ⟨[], [], [], [], []⟩)).rows = []
    ∧ (get_madrid_hourly_forecast 12 (some ⟨[], [], [], [], []⟩)).columns ≠ weatherCols :=
  ⟨by decide, by decide, by decide⟩

/-- C1 (amended): every normalizer maps an absent/malformed payload
(`none`, covering fetch and structural-parse failures) to its fixed
degraded value — a one-element placeholder list for headlines, an empty
table with the fixed column set for energy, market cap and weather — and
an empty-but-well-formed payload likewise, except that the weather
normalizer maps a payload whose series are all empty to an empty table
with an empty column set (still rendered as a data-unavailable
placeholder).  No normalizer ever fails to return a renderable value. -/
theorem claim_C1_amended (limit top_n top_m hrs : Nat) :
    scrape_okdiario_headlines limit none = ["Headlines unavailable at the moment"]
    ∧ scrape_okdiario_headlines limit (some []) = ["No recent headlines available"]
    ∧ scrape_energy_prices top_n none = ⟨energyCols, []⟩
    ∧ scrape_energy_prices top_n (some []) = ⟨energyCols, []⟩
    ∧ scrape_eu_market_cap top_m none = ⟨mcapBaseCols, []⟩
    ∧ get_madrid_hourly_forecast hrs none = ⟨weatherCols, []⟩
    ∧ get_madrid_hourly_forecast hrs (some ⟨[], [], [], [], []⟩) = ⟨[], []⟩ := by
  refine ⟨rfl, ?_, rfl, rfl, rfl, rfl, ?_⟩
  · simp [scrape_okdiario_headlines]
  · simp [get_madrid_hourly_forecast, buildRows]

/-! Section: Claim C2 — energy-table column auto-detection -/

/-- C2 (confirmed): for every row of at least 3 cells, if the
percentage mark is present in cell 1 then the change column is cell 1 and
average/high/low are read from cells 2/3/4; if it is absent from cell 1
and present in cell 2 then the change column is cell 2 and
average/high/low are read from cells 3/4/5 — always one position after the
detected change column (missing trailing cells default to `""`). -/
theorem claim_C2 (cols : List String) (h3 : 3 ≤ cols.length) :
    (containsSub (cols.getD 1 "").data ['%'] = true →
      processEnergyRow cols = some [stripRank (cols.getD 0 ""), cols.getD 1 "",
        cols.getD 2 "", cols.getD 3 "", cols.getD 4 ""])
    ∧ (containsSub (cols.getD 1 "").data ['%'] = false →
        containsSub (cols.getD 2 "").data ['%'] = true →
      processEnergyRow cols = some [stripRank (cols.getD 0 ""), cols.getD 2 "",
        cols.getD 3 "", cols.getD 4 "", cols.getD 5 ""]) := by
  have hlt : ¬ cols.length < 3 := by omega
  constructor
  · intro h1
    simp only [processEnergyRow, if_neg hlt, h1, eq_self_iff_true, if_true]
  · intro h1 h2
    have h2' : (2 : Nat) < cols.length := by omega
    simp only [processEnergyRow, if_neg hlt, h1, h2, Bool.false_eq_true, if_false,
      Bool.and_true, decide_eq_true_eq, h2', eq_self_iff_true, if_true]

/-- Witness for C2: one concrete row per detected layout. -/
theorem claim_C2_witness :
    processEnergyRow ["1 Spain", "-2.0%", "10", "20", "5"]
      = some ["Spain", "-2.0%", "10", "20", "5"]
    ∧ processEnergyRow ["2 France", "0.1", "3.4%", "7", "8", "9"]
      = some ["France", "3.4%", "7", "8", "9"] := by
  constructor
  · have h := (claim_C2 ["1 Spain", "-2.0%", "10", "20", "5"] (by decide)).1 (by decide)
    rw [h]; decide
  · have h := (claim_C2 ["2 France", "0.1", "3.4%", "7", "8", "9"] (by decide)).2
      (by decide) (by decide)
    rw [h]; decide

/-! Section: Claim C3 — market-cap threshold formatting -/

/-- C3 (confirmed): a numeric market-cap value at or above `10^12` formats
as dollars-trillions with a `T` suffix and two decimals, one at or above
`10^9` as billions with a `B` suffix and two decimals, and any smaller
value as a thousands-separated integer behind a `$` sign. -/
theorem claim_C3 (v : String) (q : Dec) (hp : parseFloat? (mcapClean v) = some q) :
    (Dec.le (Dec.ofInt (10 ^ 12)) q → format_mcap v = "$" ++ fmt2 (q.divPow10 12) ++ "T")
    ∧ (¬ Dec.le (Dec.ofInt (10 ^ 12)) q → Dec.le (Dec.ofInt (10 ^ 9)) q →
        format_mcap v = "$" ++ fmt2 (q.divPow10 9) ++ "B")
    ∧ (¬ Dec.le (Dec.ofInt (10 ^ 9)) q → format_mcap v = "$" ++ fmtThousands q) := by
  have hT := containsSub_floatStr_T q
  have hB := containsSub_floatStr_B q
  refine ⟨?_, ?_, ?_⟩
  · intro h12
    simp only [format_mcap, hp, hT, hB, Bool.false_eq_true, if_false, if_pos h12]
  · intro h12 h9
    simp only [format_mcap, hp, hT, hB, Bool.false_eq_true, if_false, if_neg h12,
      if_pos h9]
  · intro h9
    have h12 : ¬ Dec.le (Dec.ofInt (10 ^ 12)) q := fun h => h9 (dec_le_9_of_12 h)
    simp only [format_mcap, hp, hT, hB, Bool.false_eq_true, if_false, if_neg h12,
      if_neg h9]

/-- Witness for C3: the three formatted values named by the claim. -/
theorem claim_C3_witness :
    format_mcap "1500000000000" = "$1.50T"
    ∧ format_mcap "2300000000" = "$2.30B"
    ∧ format_mcap "500000" = "$500,000" := by
  refine ⟨?_, ?_, ?_⟩
  · have h := (claim_C3 "1500000000000" ⟨1500000000000, 0⟩ (by decide)).1 (by decide)
    rw [h]; decide
  · have h := (claim_C3 "2300000000" ⟨2300000000, 0⟩ (by decide)).2.1 (by decide) (by decide)
    rw [h]; decide
  · have h := (claim_C3 "500000" ⟨500000, 0⟩ (by decide)).2.2 (by decide)
    rw [h]; decide

/-! Section: Claim C10 — the dead rescaling branch of the formatter -/

/-- C10 (confirmed): the rescaling branch of `format_mcap` tests the
`T`/`B` suffix on the string rendering of the *already converted* float,
which never contains a letter, so the branch is unreachable; consequently,
for every input carrying a `T` or `B` suffix whose cleaned remainder
parses below `10^9`, the suffix is stripped but the scale factor is never
applied and the value formats as a plain dollar amount. -/
theorem claim_C10 (v : String) (q : Dec)
    (_hTB : containsSub v.data ['T'] = true ∨ containsSub v.data ['B'] = true)
    (hp : parseFloat? (mcapClean v) = some q)
    (h9 : ¬ Dec.le (Dec.ofInt (10 ^ 9)) q) :
    format_mcap v = "$" ++ fmtThousands q
    ∧ ∀ d : Dec, containsSub (floatStr d).data ['T'] = false
        ∧ containsSub (floatStr d).data ['B'] = false := by
  have hT := containsSub_floatStr_T q
  have hB := containsSub_floatStr_B q
  have h12 : ¬ Dec.le (Dec.ofInt (10 ^ 12)) q := fun h => h9 (dec_le_9_of_12 h)
  refine ⟨?_, fun d => ⟨containsSub_floatStr_T d, containsSub_floatStr_B d⟩⟩
  simp only [format_mcap, hp, hT, hB, Bool.false_eq_true, if_false, if_neg h12,
    if_neg h9]

/-- Witness for C10: the input `"1.5T"` formats as `"$2"`, not `"$1.50T"`. -/
theorem claim_C10_witness : format_mcap "1.5T" = "$2" ∧ "$2" ≠ "$1.50T" := by
  constructor
  · have h := claim_C10 "1.5T" ⟨15, 1⟩ (Or.inl (by decide)) (by decide) (by decide)
    rw [h.1]; decide
  · decide

/-! Section: Claim C4 — headline truncation order -/

theorem filterMap_length_all {α β : Type} (f : α → Option β) (l : List α)
    (h : ∀ a ∈ l, f a ≠ none) : (l.filterMap f).length = l.length := by
  induction l with
  | nil => rfl
  | cons a l ih =>
    rcases Option.ne_none_iff_exists'.1 (h a (List.mem_cons_self a l)) with ⟨b, hb⟩
    rw [List.filterMap_cons, hb]
    simp [ih (fun x hx => h x (List.mem_cons_of_mem _ hx))]

/-- C4 (counterexample): on a 10-entry feed whose first entry has an empty
title, the normalizer (which truncates to 8 entries *before* filtering)
returns only 7 titles, not the first 8 non-empty titles of the feed. -/
theorem claim_C4_counterexample :
    c4Feed.length = 10
    ∧ scrape_okdiario_headlines 8 (some c4Feed)
        = ["t1", "t2", "t3", "t4", "t5", "t6", "t7"]
    ∧ specFirstTitles c4Feed 8 = ["t1", "t2", "t3", "t4", "t5", "t6", "t7", "t8"]
    ∧ scrape_okdiario_headlines 8 (some c4Feed) ≠ specFirstTitles c4Feed 8 :=
  ⟨by decide, by decide, by decide, by decide⟩

/-- C4 (amended): for a 10-entry feed, the normalizer returns the stripped
non-empty titles *among the first 8 entries*, in feed order; in particular
when the first 8 entries all have non-empty titles it returns exactly
those 8 titles. -/
theorem claim_C4_amended (entries : List (Option String)) (h10 : entries.length = 10)
    (hall : ∀ e ∈ entries.take 8, cleanTitle e ≠ none) :
    scrape_okdiario_headlines 8 (some entries) = (entries.take 8).filterMap cleanTitle
    ∧ ((entries.take 8).filterMap cleanTitle).length = 8 := by
  have hlen : ((entries.take 8).filterMap cleanTitle).length = 8 := by
    rw [filterMap_length_all _ _ hall, List.length_take, h10]
    decide
  have hne : ((entries.take 8).filterMap cleanTitle).isEmpty = false := by
    cases hE : ((entries.take 8).filterMap cleanTitle).isEmpty with
    | false => rfl
    | true =>
      rw [List.isEmpty_iff.1 hE] at hlen
      simp at hlen
  refine ⟨?_, hlen⟩
  simp only [scrape_okdiario_headlines, hne, Bool.false_eq_true, if_false]

/-- Witness for C4 (amended): a 10-entry feed with all titles non-empty
yields exactly the first 8 titles. -/
theorem claim_C4_witness :
    scrape_okdiario_headlines 8 (some c4GoodFeed)
      = ["a1", "a2", "a3", "a4", "a5", "a6", "a7", "a8"] := by
  have h := claim_C4_amended c4GoodFeed (by decide) (by decide)
  rw [h.1]; decide

/-! Section: Claims C5 and C6 — the weather row loop -/

theorem buildRows_shorter :
    ∀ (ts : List String) (tps fls rps rms : List Dec),
      (tps.length < ts.length ∨ fls.length < ts.length ∨ rps.length < ts.length ∨
        rms.length < ts.length) →
      buildRows ts tps fls rps rms = none := by
  intro ts
  induction ts with
  | nil => intro tps fls rps rms h; simp at h
  | cons t ts ih =>
    intro tps fls rps rms h
    cases tps with
    | nil => cases fls <;> cases rps <;> cases rms <;> rfl
    | cons tp tps =>
      cases fls with
      | nil => cases rps <;> cases rms <;> rfl
      | cons fl fls =>
        cases rps with
        | nil => cases rms <;> rfl
        | cons rp rps =>
          cases rms with
          | nil => rfl
          | cons rm rms =>
            have h' : tps.length < ts.length ∨ fls.length < ts.length ∨
                rps.length < ts.length ∨ rms.length < ts.length := by
              simp only [List.length_cons] at h
              omega
            have hin := ih tps fls rps rms h'
            cases hh : hhmm? t <;> simp [buildRows, hin, hh]

theorem buildRows_ok :
    ∀ (ts : List String) (tps fls rps rms : List Dec),
      ts.length ≤ tps.length → ts.length ≤ fls.length → ts.length ≤ rps.length →
      ts.length ≤ rms.length → (∀ t ∈ ts, (hhmm? t).isSome) →
      ∃ rows, buildRows ts tps fls rps rms = some rows ∧ rows.length = ts.length := by
  intro ts
  induction ts with
  | nil => intro tps fls rps rms _ _ _ _ _; exact ⟨[], rfl, rfl⟩
  | cons t ts ih =>
    intro tps fls rps rms h1 h2 h3 h4 ht
    cases tps with
    | nil => simp at h1
    | cons tp tps =>
      cases fls with
      | nil => simp at h2
      | cons fl fls =>
        cases rps with
        | nil => simp at h3
        | cons rp rps =>
          cases rms with
          | nil => simp at h4
          | cons rm rms =>
            obtain ⟨v, hv⟩ := Option.isSome_iff_exists.1 (ht t (List.mem_cons_self t ts))
            obtain ⟨rest, hrest, hlen⟩ := ih tps fls rps rms
              (by simpa using h1) (by simpa using h2) (by simpa using h3)
              (by simpa using h4)
              (fun x hx => ht x (List.mem_cons_of_mem _ hx))
            exact ⟨[v, floatStr tp ++ " °C", floatStr fl ++ " °C", floatStr rp ++ "%",
                fmt1 rm ++ " mm",
                if Dec.lt ⟨1, 1⟩ rm then "Rain" else "Clear/Cloudy"] :: rest,
              by simp [buildRows, hv, hrest],
              by simp [List.length_cons, hlen]⟩

theorem buildRows_cond :
    ∀ (ts : List String) (tps fls rps rms : List Dec) (rows : List (List String)),
      buildRows ts tps fls rps rms = some rows →
      ∀ i, i < rows.length →
        (rows.getD i []).getD 5 "" =
          if Dec.lt ⟨1, 1⟩ (rms.getD i ⟨0, 0⟩) then "Rain" else "Clear/Cloudy" := by
  intro ts
  induction ts with
  | nil =>
    intro tps fls rps rms rows h i hi
    simp only [buildRows, Option.some.injEq] at h
    subst h
    simp at hi
  | cons t ts ih =>
    intro tps fls rps rms rows h i hi
    cases tps with
    | nil => cases fls <;> cases rps <;> cases rms <;> simp [buildRows] at h
    | cons tp tps =>
      cases fls with
      | nil => cases rps <;> cases rms <;> simp [buildRows] at h
      | cons fl fls =>
        cases rps with
        | nil => cases rms <;> simp [buildRows] at h
        | cons rp rps =>
          cases rms with
          | nil => simp [buildRows] at h
          | cons rm rms =>
            cases hh : hhmm? t with
            | none => simp [buildRows, hh] at h
            | some v =>
              cases hb : buildRows ts tps fls rps rms with
              | none => simp [buildRows, hh, hb] at h
              | some rest =>
                simp only [buildRows, hh, hb, Option.some.injEq] at h
                subst h
                cases i with
                | zero => simp [List.getD]
                | succ i =>
                  simp only [List.length_cons, Nat.succ_lt_succ_iff] at hi
                  simpa [List.getD_cons_succ] using ih tps fls rps rms rest hb i hi

/-- C5 (counterexample): on a payload whose temperature series (length 1)
is shorter than its time series (length 2), the normalizer does not return
one row per position of the shortest series — the out-of-range index is
caught and the whole source degrades to the empty fixed-column frame. -/
theorem claim_C5_counterexample :
    get_madrid_hourly_forecast 12 (some c5Payload) = ⟨weatherCols, []⟩
    ∧ (get_madrid_hourly_forecast 12 (some c5Payload)).rows.length = 0
    ∧ (c5Payload.temperature_2m.take 12).length = 1 :=
  ⟨by decide, by decide, by decide⟩

/-- C5 (amended): the loop iterates over the truncated *time* series.  When
every other series is at least as long (so the time series is a shortest
series) and every timestamp parses, the normalizer returns one row per
time position; but when any other series is strictly shorter than the time
series, the per-row index error is caught and the whole source degrades to
the empty fixed-column frame instead of truncating to the shortest
series. -/
theorem claim_C5_amended (hrs : Nat) (h : Hourly) :
    ((h.time.take hrs).length ≤ (h.temperature_2m.take hrs).length →
     (h.time.take hrs).length ≤ (h.apparent_temperature.take hrs).length →
     (h.time.take hrs).length ≤ (h.precipitation_probability.take hrs).length →
     (h.time.take hrs).length ≤ (h.precipitation.take hrs).length →
     (∀ t ∈ h.time.take hrs, (hhmm? t).isSome) →
     (get_madrid_hourly_forecast hrs (some h)).rows.length = (h.time.take hrs).length)
    ∧ ((h.temperature_2m.take hrs).length < (h.time.take hrs).length ∨
       (h.apparent_temperature.take hrs).length < (h.time.take hrs).length ∨
       (h.precipitation_probability.take hrs).length < (h.time.take hrs).length ∨
       (h.precipitation.take hrs).length < (h.time.take hrs).length →
     get_madrid_hourly_forecast hrs (some h) = ⟨weatherCols, []⟩) := by
  constructor
  · intro h1 h2 h3 h4 ht
    obtain ⟨rows, hrows, hlen⟩ := buildRows_ok (h.time.take hrs)
      (h.temperature_2m.take hrs) (h.apparent_temperature.take hrs)
      (h.precipitation_probability.take hrs) (h.precipitation.take hrs)
      h1 h2 h3 h4 ht
    cases hre : rows.isEmpty with
    | true =>
      rw [List.isEmpty_iff.1 hre] at hrows hlen
      simp [get_madrid_hourly_forecast, hrows, ← hlen]
    | false =>
      simp [get_madrid_hourly_forecast, hrows, hre, hlen]
  · intro hshort
    have hnone := buildRows_shorter (h.time.take hrs) (h.temperature_2m.take hrs)
      (h.apparent_temperature.take hrs) (h.precipitation_probability.take hrs)
      (h.precipitation.take hrs) hshort
    simp [get_madrid_hourly_forecast, hnone]

/-- Witness for C5 (amended): a payload whose time series is the shortest
yields one row per time position; a payload with a shorter
precipitation-probability series degrades to the empty frame. -/
theorem claim_C5_witness :
    (get_madrid_hourly_forecast 12 (some c5ShortTimes)).rows.length = 1
    ∧ get_madrid_hourly_forecast 12 (some c5ShortProb) = ⟨weatherCols, []⟩ := by
  constructor
  · have h := (claim_C5_amended 12 c5ShortTimes).1 (by decide) (by decide) (by decide)
      (by decide) (by decide)
    rw [h]; decide
  · exact (claim_C5_amended 12 c5ShortProb).2 (by decide)

/-- C6 (confirmed): in every successfully built row list, the condition
cell is `"Rain"` exactly when the precipitation amount at that position
exceeds `0.1`, and `"Clear/Cloudy"` otherwise; the row list is the
normalizer's output whenever it is non-empty. -/
theorem claim_C6 (hrs : Nat) (h : Hourly) (rows : List (List String))
    (hb : buildRows (h.time.take hrs) (h.temperature_2m.take hrs)
        (h.apparent_temperature.take hrs) (h.precipitation_probability.take hrs)
        (h.precipitation.take hrs) = some rows) :
    (∀ i, i < rows.length →
      (rows.getD i []).getD 5 "" =
        if Dec.lt ⟨1, 1⟩ ((h.precipitation.take hrs).getD i ⟨0, 0⟩) then "Rain"
        else "Clear/Cloudy")
    ∧ (rows ≠ [] → (get_madrid_hourly_forecast hrs (some h)).rows = rows) := by
  constructor
  · exact buildRows_cond (h.time.take hrs) (h.temperature_2m.take hrs)
      (h.apparent_temperature.take hrs) (h.precipitation_probability.take hrs)
      (h.precipitation.take hrs) rows hb
  · intro hne
    have hre : rows.isEmpty = false := by
      cases hE : rows.isEmpty with
      | false => rfl
      | true => exact absurd (List.isEmpty_iff.1 hE) hne
    simp [get_madrid_hourly_forecast, hb, hre]

/-- Witness for C6: a 2-hour payload with precipitation `0.0` then `2.5`
yields conditions `"Clear/Cloudy"` and `"Rain"` at those positions. -/
theorem claim_C6_witness :
    ((get_madrid_hourly_forecast 12 (some c6Payload)).rows.getD 0 []).getD 5 ""
      = "Clear/Cloudy"
    ∧ ((get_madrid_hourly_forecast 12 (some c6Payload)).rows.getD 1 []).getD 5 ""
      = "Rain" := by
  have h := claim_C6 12 c6Payload c6Rows (by decide)
  have h2 := h.2 (by decide)
  rw [h2]
  constructor
  · have h0 := h.1 0 (by decide)
    rw [h0]; decide
  · have h1 := h.1 1 (by decide)
    rw [h1]; decide

/-! Section: Claim C7 — the percentage colorizer -/

theorem dropWhile_len_le (p : Char → Bool) (l : List Char) :
    (l.dropWhile p).length ≤ l.length := by
  induction l with
  | nil => simp
  | cons c rest ih =>
    rw [List.dropWhile_cons]
    split
    · exact Nat.le_succ_of_le ih
    · exact le_refl _

theorem tryTokenCore_le {sgn l1 tok r : List Char}
    (h : tryTokenCore sgn l1 = some (tok, r)) : r.length ≤ l1.length := by
  simp only [tryTokenCore] at h
  by_cases hds : (l1.takeWhile Char.isDigit).isEmpty = true
  · rw [if_pos hds] at h
    exact absurd h (by simp)
  · rw [if_neg hds] at h
    have hd1 : (l1.dropWhile Char.isDigit).length ≤ l1.length := dropWhile_len_le _ _
    by_cases hdot : (l1.dropWhile Char.isDigit).head? = some '.'
    · rw [if_pos hdot, if_pos hdot] at h
      have hd2 : (((l1.dropWhile Char.isDigit).tail).dropWhile Char.isDigit).length
          ≤ ((l1.dropWhile Char.isDigit).tail).length := dropWhile_len_le _ _
      by_cases hpc : (((l1.dropWhile Char.isDigit).tail).dropWhile Char.isDigit).head?
            = some '%'
          ∧ ((((l1.dropWhile Char.isDigit).tail).dropWhile Char.isDigit).tail).head?
            = some '<'
      · rw [if_pos hpc] at h
        simp only [Option.some.injEq, Prod.mk.injEq] at h
        rw [← h.2]
        have htail : (l1.dropWhile Char.isDigit).tail.length
            ≤ (l1.dropWhile Char.isDigit).length := by
          simp only [List.length_tail]
          omega
        simp only [List.length_tail]
        omega
      · rw [if_neg hpc] at h
        exact absurd h (by simp)
    · rw [if_neg hdot, if_neg hdot] at h
      have hd2 : ((l1.dropWhile Char.isDigit).dropWhile Char.isDigit).length
          ≤ (l1.dropWhile Char.isDigit).length := dropWhile_len_le _ _
      by_cases hpc : ((l1.dropWhile Char.isDigit).dropWhile Char.isDigit).head? = some '%'
          ∧ (((l1.dropWhile Char.isDigit).dropWhile Char.isDigit).tail).head? = some '<'
      · rw [if_pos hpc] at h
        simp only [Option.some.injEq, Prod.mk.injEq] at h
        rw [← h.2]
        simp only [List.length_tail]
        omega
      · rw [if_neg hpc] at h
        exact absurd h (by simp)

theorem tryToken_le {l tok r : List Char} (h : tryToken l = some (tok, r)) :
    r.length ≤ l.length := by
  cases l with
  | nil =>
    simp only [tryToken] at h
    exact tryTokenCore_le h
  | cons c rest =>
    simp only [tryToken] at h
    by_cases hc : c = '+' ∨ c = '-'
    · rw [if_pos hc] at h
      exact Nat.le_succ_of_le (tryTokenCore_le h)
    · rw [if_neg hc] at h
      exact tryTokenCore_le h

theorem colorLoop_nil (fuel : Nat) : colorLoop fuel [] = [] := by
  cases fuel <;> rfl

theorem colorLoop_fuel :
    ∀ (fuel fuel' : Nat) (l : List Char), l.length ≤ fuel → l.length ≤ fuel' →
      colorLoop fuel l = colorLoop fuel' l := by
  intro fuel
  induction fuel with
  | zero =>
    intro fuel' l h1 _
    rw [List.length_eq_zero.1 (Nat.le_zero.1 h1)]
    rw [colorLoop_nil, colorLoop_nil]
  | succ f ih =>
    intro fuel' l h1 h2
    cases l with
    | nil => rw [colorLoop_nil, colorLoop_nil]
    | cons c rest =>
      cases fuel' with
      | zero => simp at h2
      | succ f' =>
        simp only [List.length_cons, Nat.succ_le_succ_iff] at h1 h2
        simp only [colorLoop]
        by_cases hc : c = '>'
        · rw [if_pos hc, if_pos hc]
          cases htk : tryToken rest with
          | none =>
            show '>' :: colorLoop f rest = '>' :: colorLoop f' rest
            rw [ih f' rest h1 h2]
          | some pr =>
            obtain ⟨tok, r'⟩ := pr
            have hr := tryToken_le htk
            show wrapTok tok ++ colorLoop f r' = wrapTok tok ++ colorLoop f' r'
            rw [ih f' r' (le_trans hr h1) (le_trans hr h2)]
        · rw [if_neg hc, if_neg hc, ih f' rest h1 h2]

theorem colorLoop_no_gt :
    ∀ (l : List Char) (fuel : Nat), '>' ∉ l → l.length ≤ fuel →
      colorLoop fuel l = l := by
  intro l
  induction l with
  | nil => intro fuel _ _; exact colorLoop_nil fuel
  | cons c rest ih =>
    intro fuel h hf
    cases fuel with
    | zero => simp at hf
    | succ f =>
      have hc : ¬ c = '>' := fun hcc => h (hcc ▸ List.mem_cons_self c rest)
      simp only [colorLoop, if_neg hc]
      simp only [List.length_cons, Nat.succ_le_succ_iff] at hf
      rw [ih f (fun hm => h (List.mem_cons_of_mem _ hm)) hf]

theorem colorLoop_append :
    ∀ (a rest : List Char) (fuel : Nat), '>' ∉ a → (a ++ rest).length ≤ fuel →
      colorLoop fuel (a ++ rest) = a ++ colorLoop (fuel - a.length) rest := by
  intro a
  induction a with
  | nil => intro rest fuel _ _; simp
  | cons c a ih =>
    intro rest fuel h hf
    cases fuel with
    | zero => simp at hf
    | succ f =>
      have hc : ¬ c = '>' := fun hcc => h (hcc ▸ List.mem_cons_self c a)
      have hf' : (a ++ rest).length ≤ f := by
        simp only [List.cons_append, List.length_cons, Nat.succ_le_succ_iff] at hf
        exact hf
      simp only [List.cons_append, colorLoop, if_neg hc, List.append_eq]
      rw [ih rest f (fun hm => h (List.mem_cons_of_mem _ hm)) hf']
      simp only [List.length_cons, Nat.succ_sub_succ]

theorem takeWhile_digits_append (ds rest : List Char)
    (hds : ∀ c ∈ ds, c.isDigit = true)
    (hrest : ∀ c, rest.head? = some c → c.isDigit = false) :
    (ds ++ rest).takeWhile Char.isDigit = ds
    ∧ (ds ++ rest).dropWhile Char.isDigit = rest := by
  induction ds with
  | nil =>
    cases rest with
    | nil => exact ⟨rfl, rfl⟩
    | cons c r =>
      have hcd := hrest c rfl
      constructor
      · simp [List.takeWhile_cons, hcd]
      · simp [List.dropWhile_cons, hcd]
  | cons d ds ih =>
    have hd := hds d (List.mem_cons_self _ _)
    obtain ⟨h1, h2⟩ := ih (fun c hc => hds c (List.mem_cons_of_mem _ hc))
    constructor
    · simp only [List.cons_append, List.takeWhile_cons, hd, if_true, h1]
    · simp only [List.cons_append, List.dropWhile_cons, hd, if_true, h2]

theorem tryTokenCore_token (sgn ds dotp b : List Char) (hne : ds ≠ [])
    (hds : ∀ c ∈ ds, c.isDigit = true)
    (hdotp : dotp = [] ∨ ∃ ds2, dotp = '.' :: ds2 ∧ ∀ c ∈ ds2, c.isDigit = true) :
    tryTokenCore sgn (ds ++ (dotp ++ '%' :: '<' :: b))
      = some (sgn ++ ds ++ dotp ++ ['%'], b) := by
  have hhead : ∀ c, (dotp ++ '%' :: '<' :: b).head? = some c → c.isDigit = false := by
    rcases hdotp with rfl | ⟨ds2, rfl, _⟩
    · intro c hc
      simp only [List.nil_append, List.head?_cons, Option.some.injEq] at hc
      rw [← hc]
      decide
    · intro c hc
      simp only [List.cons_append, List.head?_cons, Option.some.injEq] at hc
      rw [← hc]
      decide
  obtain ⟨htw, hdw⟩ := takeWhile_digits_append ds (dotp ++ '%' :: '<' :: b) hds hhead
  have hnds : ¬ (ds.isEmpty = true) := by simp [hne]
  rcases hdotp with rfl | ⟨ds2, rfl, hds2⟩
  · have hh : ((([] : List Char) ++ '%' :: '<' :: b).head? = some '.') = False := by
      simp only [List.nil_append, List.head?_cons, Option.some.injEq]
      simp
    simp only [tryTokenCore, htw, hdw, if_neg hnds, hh, if_false]
    have h5 : (([] : List Char) ++ '%' :: '<' :: b).takeWhile Char.isDigit = [] := by
      simp [List.takeWhile_cons]
    have h6 : (([] : List Char) ++ '%' :: '<' :: b).dropWhile Char.isDigit
        = '%' :: '<' :: b := by
      simp [List.dropWhile_cons]
    rw [h5, h6]
    rw [if_pos (by exact ⟨rfl, rfl⟩)]
    simp
  · have hh : ((('.' :: ds2) ++ '%' :: '<' :: b).head? = some '.') = True := by
      simp
    simp only [tryTokenCore, htw, hdw, if_neg hnds, hh, if_true]
    have htl : (('.' :: ds2) ++ '%' :: '<' :: b).tail = ds2 ++ '%' :: '<' :: b := rfl
    rw [htl]
    obtain ⟨h7, h8⟩ := takeWhile_digits_append ds2 ('%' :: '<' :: b) hds2
      (by
        intro c hc
        simp only [List.head?_cons, Option.some.injEq] at hc
        rw [← hc]
        decide)
    rw [h7, h8]
    rw [if_pos (by exact ⟨rfl, rfl⟩)]
    simp

theorem tryToken_token {tok b : List Char} (h : IsPctTok tok) :
    tryToken (tok ++ '<' :: b) = some (tok, b) := by
  obtain ⟨sgn, ds, dotp, rfl, hsgn, hne, hds, hdotp⟩ := h
  rcases ds with _ | ⟨d, ds'⟩
  · exact absurd rfl hne
  have hd : d.isDigit = true := hds d (List.mem_cons_self _ _)
  have hdp : ¬ (d = '+' ∨ d = '-') := by
    rintro (rfl | rfl) <;> exact absurd hd (by decide)
  rcases hsgn with rfl | rfl | rfl
  · have hshape : ([] ++ (d :: ds') ++ dotp ++ ['%']) ++ '<' :: b
        = d :: (ds' ++ (dotp ++ '%' :: '<' :: b)) := by simp
    rw [hshape]
    simp only [tryToken]
    rw [if_neg hdp]
    have hshape2 : d :: (ds' ++ (dotp ++ '%' :: '<' :: b))
        = (d :: ds') ++ (dotp ++ '%' :: '<' :: b) := rfl
    rw [hshape2, tryTokenCore_token [] (d :: ds') dotp b hne hds hdotp]
  · have hshape : (['+'] ++ (d :: ds') ++ dotp ++ ['%']) ++ '<' :: b
        = '+' :: ((d :: ds') ++ (dotp ++ '%' :: '<' :: b)) := by simp
    rw [hshape]
    simp only [tryToken, true_or, or_true, if_true]
    rw [tryTokenCore_token ['+'] (d :: ds') dotp b hne hds hdotp]
  · have hshape : (['-'] ++ (d :: ds') ++ dotp ++ ['%']) ++ '<' :: b
        = '-' :: ((d :: ds') ++ (dotp ++ '%' :: '<' :: b)) := by simp
    rw [hshape]
    simp only [tryToken, true_or, or_true, if_true]
    rw [tryTokenCore_token ['-'] (d :: ds') dotp b hne hds hdotp]

/-- C7 (confirmed): the colorizer rewrites every `>token<`-delimited
percentage token into `>` + a styled span + `<`, using the red marker for
`-`-signed tokens and the green marker otherwise, leaves any `>`-free
prefix byte-identical, and processes the remainder recursively; a
`>`-free string is left entirely unchanged. -/
theorem claim_C7 (a b tok : List Char) (ha : '>' ∉ a) (ht : IsPctTok tok) :
    (color_percentages (String.mk (a ++ '>' :: (tok ++ '<' :: b)))).data
      = a ++ wrapTok tok ++ (color_percentages (String.mk b)).data
    ∧ (tok.head? = some '-' →
        wrapTok tok = '>' :: (spanOpen "#d62728").data ++ tok ++ "</span><".data)
    ∧ (tok.head? ≠ some '-' →
        wrapTok tok = '>' :: (spanOpen "#2ca02c").data ++ tok ++ "</span><".data)
    ∧ ('>' ∉ b → color_percentages (String.mk b) = String.mk b) := by
  refine ⟨?_, ?_, ?_, ?_⟩
  · show colorLoop (a ++ '>' :: (tok ++ '<' :: b)).length (a ++ '>' :: (tok ++ '<' :: b))
        = a ++ wrapTok tok ++ colorLoop b.length b
    rw [colorLoop_append a _ _ ha (le_refl _)]
    have hM : (a ++ '>' :: (tok ++ '<' :: b)).length - a.length
        = (tok ++ '<' :: b).length + 1 := by
      simp [List.length_append]
    rw [hM]
    have h1 : tryToken (tok ++ '<' :: b) = some (tok, b) := tryToken_token ht
    have hstep : colorLoop ((tok ++ '<' :: b).length + 1) ('>' :: (tok ++ '<' :: b))
        = wrapTok tok ++ colorLoop (tok ++ '<' :: b).length b := by
      simp only [colorLoop, h1, if_true, eq_self_iff_true]
    rw [hstep]
    rw [colorLoop_fuel (tok ++ '<' :: b).length b.length b
      (by simp only [List.length_append, List.length_cons]; omega) (le_refl _)]
    simp [List.append_assoc]
  · intro hh
    simp [wrapTok, pctColor, hh]
  · intro hh
    simp [wrapTok, pctColor, hh]
  · intro hb
    show String.mk (colorLoop b.length b) = String.mk b
    rw [colorLoop_no_gt b b.length hb (le_refl _)]

/-- Witness for C7: the two fragments named by the claim, wrapped with the
red and green markers respectively. -/
theorem claim_C7_witness :
    color_percentages "<td>-3.2%</td>"
      = "<td><span style=\"color:#d62728; font-weight:600;\">-3.2%</span></td>"
    ∧ color_percentages "<td>4.1%</td>"
      = "<td><span style=\"color:#2ca02c; font-weight:600;\">4.1%</span></td>" := by
  have ht1 : IsPctTok "-3.2%".data :=
    ⟨['-'], ['3'], ['.', '2'], by decide, Or.inr (Or.inr rfl), by decide, by decide,
     Or.inr ⟨['2'], rfl, by decide⟩⟩
  have ht2 : IsPctTok "4.1%".data :=
    ⟨[], ['4'], ['.', '1'], by decide, Or.inl rfl, by decide, by decide,
     Or.inr ⟨['1'], rfl, by decide⟩⟩
  have h1 := claim_C7 "<td".data "/td>".data "-3.2%".data (by decide) ht1
  have h2 := claim_C7 "<td".data "/td>".data "4.1%".data (by decide) ht2
  constructor
  · apply String.ext
    have e : String.mk ("<td".data ++ '>' :: ("-3.2%".data ++ '<' :: "/td>".data))
        = "<td>-3.2%</td>" := by decide
    rw [← e, h1.1]
    decide
  · apply String.ext
    have e : String.mk ("<td".data ++ '>' :: ("4.1%".data ++ '<' :: "/td>".data))
        = "<td>4.1%</td>" := by decide
    rw [← e, h2.1]
    decide

/-! Section: Claims C8 and C9 — the report renderer -/

theorem concat_decomp {α : Type} (g : α → String) (x : α) (l : List α) (hx : x ∈ l) :
    ∃ u v, (concatStrings (l.map g)).data = u ++ (g x).data ++ v := by
  induction l with
  | nil => simp at hx
  | cons a l ih =>
    rcases List.mem_cons.1 hx with rfl | hx'
    · exact ⟨[], (concatStrings (l.map g)).data, by
        simp [concatStrings, String.data_append]⟩
    · obtain ⟨u, v, huv⟩ := ih hx'
      exact ⟨(g a).data ++ u, v, by
        simp [concatStrings, String.data_append, huv, List.append_assoc]⟩

theorem to_html_th (df : DF) (c : String) (hc : c ∈ df.columns) :
    ∃ u v, (to_html df).data = u ++ ("<th>" ++ c ++ "</th>").data ++ v := by
  obtain ⟨u0, v0, h0⟩ :=
    concat_decomp (fun c => "      <th>" ++ c ++ "</th>\n") c df.columns hc
  have e1 : ("      <th>" : String).data = "      ".data ++ "<th>".data := by decide
  have e2 : ("</th>\n" : String).data = "</th>".data ++ "\n".data := by decide
  refine ⟨("<table border=\"1\" class=\"dataframe styled\">\n  <thead>\n    <tr style=\"text-align: right;\">\n" : String).data
      ++ u0 ++ ("      " : String).data,
    ("\n" : String).data ++ v0
      ++ ("    </tr>\n  </thead>\n  <tbody>\n" : String).data
      ++ (concatStrings (df.rows.map (fun r =>
          "    <tr>\n"
            ++ concatStrings (r.map (fun v => "      <td>" ++ v ++ "</td>\n"))
            ++ "    </tr>\n"))).data
      ++ ("  </tbody>\n</table>" : String).data, ?_⟩
  simp only [to_html, String.data_append, h0, e1, e2, List.append_assoc,
    List.cons_append, List.nil_append]

theorem to_html_td (df : DF) (r : List String) (hr : r ∈ df.rows)
    (cell : String) (hcell : cell ∈ r) :
    ∃ u v, (to_html df).data = u ++ ("<td>" ++ cell ++ "</td>").data ++ v := by
  obtain ⟨u1, v1, h1⟩ := concat_decomp (fun r =>
    "    <tr>\n"
      ++ concatStrings (r.map (fun v => "      <td>" ++ v ++ "</td>\n"))
      ++ "    </tr>\n") r df.rows hr
  obtain ⟨u2, v2, h2⟩ :=
    concat_decomp (fun v => "      <td>" ++ v ++ "</td>\n") cell r hcell
  have e1 : ("      <td>" : String).data = "      ".data ++ "<td>".data := by decide
  have e2 : ("</td>\n" : String).data = "</td>".data ++ "\n".data := by decide
  refine ⟨("<table border=\"1\" class=\"dataframe styled\">\n  <thead>\n    <tr style=\"text-align: right;\">\n" : String).data
      ++ (concatStrings (df.columns.map (fun c => "      <th>" ++ c ++ "</th>\n"))).data
      ++ ("    </tr>\n  </thead>\n  <tbody>\n" : String).data
      ++ u1 ++ ("    <tr>\n" : String).data ++ u2 ++ ("      " : String).data,
    ("\n" : String).data ++ v2 ++ ("    </tr>\n" : String).data ++ v1
      ++ ("  </tbody>\n</table>" : String).data, ?_⟩
  simp only [to_html, String.data_append, h1, h2, e1, e2, List.append_assoc,
    List.cons_append, List.nil_append]

/-- C8 (confirmed): a table-valued source with an empty normalized table is
rendered as the explicit unavailability paragraph, never as an empty table
shell; a non-empty table is rendered as its colorized HTML table, which
contains a `<th>` element for every column name and a `<td>` element for
every cell of every row; and each of the four per-table fragments appears
inside the generated document. -/
theorem claim_C8 (now : String) (hs : List String) (e m s f df : DF) :
    (df.rows = [] → sectionHtml df = "<p>Data currently unavailable</p>")
    ∧ (df.rows ≠ [] → df.columns ≠ [] →
        sectionHtml df = color_percentages (to_html df)
        ∧ (∀ c ∈ df.columns,
            ∃ u v, (to_html df).data = u ++ ("<th>" ++ c ++ "</th>").data ++ v)
        ∧ (∀ r ∈ df.rows, ∀ cell ∈ r,
            ∃ u v, (to_html df).data = u ++ ("<td>" ++ cell ++ "</td>").data ++ v))
    ∧ (∃ u v, (generate_html_report now hs e m s f).data
        = u ++ (sectionHtml e).data ++ v)
    ∧ (∃ u v, (generate_html_report now hs e m s f).data
        = u ++ (sectionHtml m).data ++ v)
    ∧ (∃ u v, (generate_html_report now hs e m s f).data
        = u ++ (sectionHtml s).data ++ v)
    ∧ (∃ u v, (generate_html_report now hs e m s f).data
        = u ++ (sectionHtml f).data ++ v) := by
  refine ⟨?_, ?_, ?_, ?_, ?_, ?_⟩
  · intro h
    simp [sectionHtml, DF.empty, h]
  · intro h1 h2
    refine ⟨by simp [sectionHtml, DF.empty, h1, h2], ?_, ?_⟩
    · intro c hc
      exact to_html_th df c hc
    · intro r hr cell hcell
      exact to_html_td df r hr cell hcell
  · exact ⟨(htmlHead ++ now ++ htmlAfterNow
        ++ concatStrings (hs.map (fun h => "<li>" ++ h ++ "</li>"))
        ++ htmlAfterHeadlines).data,
      (htmlAfterEnergy ++ sectionHtml m ++ htmlAfterMarket ++ sectionHtml s
        ++ htmlAfterStocks ++ sectionHtml f ++ htmlTail).data,
      by simp [generate_html_report, String.data_append, List.append_assoc]⟩
  · exact ⟨(htmlHead ++ now ++ htmlAfterNow
        ++ concatStrings (hs.map (fun h => "<li>" ++ h ++ "</li>"))
        ++ htmlAfterHeadlines ++ sectionHtml e ++ htmlAfterEnergy).data,
      (htmlAfterMarket ++ sectionHtml s ++ htmlAfterStocks ++ sectionHtml f
        ++ htmlTail).data,
      by simp [generate_html_report, String.data_append, List.append_assoc]⟩
  · exact ⟨(htmlHead ++ now ++ htmlAfterNow
        ++ concatStrings (hs.map (fun h => "<li>" ++ h ++ "</li>"))
        ++ htmlAfterHeadlines ++ sectionHtml e ++ htmlAfterEnergy ++ sectionHtml m
        ++ htmlAfterMarket).data,
      (htmlAfterStocks ++ sectionHtml f ++ htmlTail).data,
      by simp [generate_html_report, String.data_append, List.append_assoc]⟩
  · exact ⟨(htmlHead ++ now ++ htmlAfterNow
        ++ concatStrings (hs.map (fun h => "<li>" ++ h ++ "</li>"))
        ++ htmlAfterHeadlines ++ sectionHtml e ++ htmlAfterEnergy ++ sectionHtml m
        ++ htmlAfterMarket ++ sectionHtml s ++ htmlAfterStocks).data,
      (htmlTail).data,
      by simp [generate_html_report, String.data_append, List.append_assoc]⟩

/-- Witness for C8: an empty energy table renders as the unavailability
paragraph; a non-empty one-cell table renders as its colorized HTML
table. -/
theorem claim_C8_witness :
    sectionHtml ⟨energyCols, []⟩ = "<p>Data currently unavailable</p>"
    ∧ sectionHtml ⟨["A"], [["5"]]⟩ = color_percentages (to_html ⟨["A"], [["5"]]⟩) := by
  constructor
  · exact (claim_C8 "x" [] ⟨energyCols, []⟩ ⟨energyCols, []⟩ ⟨energyCols, []⟩
      ⟨energyCols, []⟩ ⟨energyCols, []⟩).1 rfl
  · exact ((claim_C8 "x" [] ⟨energyCols, []⟩ ⟨energyCols, []⟩ ⟨energyCols, []⟩
      ⟨energyCols, []⟩ ⟨["A"], [["5"]]⟩).2.1 (by decide) (by decide)).1

/-- C9 (confirmed): with the fetched payloads fixed, the generated document
is a deterministic function of the payloads and the timestamp, and two runs
differ at most in the embedded timestamp: both documents are the same fixed
prefix, then the timestamp, then the same payload-determined suffix. -/
theorem claim_C9 (feed : Option (List (Option String)))
    (energy : Option (List (List String)))
    (mcap : Option (List String × List (List String)))
    (weather : Option Hourly) (now1 now2 : String) :
    ∃ pre post : List Char,
      (runPipeline now1 feed energy mcap weather).data = pre ++ now1.data ++ post
      ∧ (runPipeline now2 feed energy mcap weather).data = pre ++ now2.data ++ post := by
  refine ⟨htmlHead.data,
    (htmlAfterNow
      ++ concatStrings ((scrape_okdiario_headlines 8 feed).map
          (fun h => "<li>" ++ h ++ "</li>"))
      ++ htmlAfterHeadlines ++ sectionHtml (scrape_energy_prices 10 energy)
      ++ htmlAfterEnergy ++ sectionHtml (scrape_eu_market_cap 15 mcap)
      ++ htmlAfterMarket ++ sectionHtml scrape_global_markets
      ++ htmlAfterStocks ++ sectionHtml (get_madrid_hourly_forecast 12 weather)
      ++ htmlTail).data, ?_, ?_⟩ <;>
    simp [runPipeline, generate_html_report, String.data_append, List.append_assoc]
